import Mathlib

/-!
# Verification of the `node-taskrunner` dispatcher and task lifecycle

Shallow embedding of `src/classes/TaskRunner.js` (the two versions present in
the sources, referred to below as P0 — the older one — and P1 — the newer one)
and `src/classes/Task.js`.  JavaScript values are embedded as the inductive
`Value`; thrown exceptions as `Except Err`; the notification callback as an
accumulated list of the errors handed to it; in-place mutation of a descriptor
object as explicit state passing (the function returns the final state of the
caller's object).  The embedding is deterministic: the single-threaded event
loop is serialized in entry order, and a settled promise is represented by the
`Value.vPromise` wrapper around its fulfilled value.
-/

set_option autoImplicit false

namespace TaskRunnerSpec

/-- JavaScript values, restricted to the shapes the dispatcher manipulates.
`vObj` carries the fields in insertion order (the order `Object.entries`
iterates); `vPromise v` is a promise settled with fulfillment value `v`
(the deterministic embedding only ever observes settled promises).
Numbers are embedded as integers: no claim involves fractional values. -/
inductive Value where
  | vNull
  | vUndefined
  | vBool (b : Bool)
  | vNum (n : Int)
  | vStr (s : String)
  | vArr (elems : List Value)
  | vObj (fields : List (String × Value))
  | vPromise (v : Value)

/-- The distinct fault kinds raised by the runner, one per message prefix of
`TaskRunnerException` in the source:
`notConstructor` = "Task constructor must be a constructor: ",
`duplicateType` = "Task constructor already defined: ",
`invalidParallel` = "Invalid parallel type: ",
`invalidSequence` = "Invalid sequence type: ",
`invalidTask` = "Invalid task type: ",
`unknownTask` = "Unknown task type: ",
`failedConstruct` = "Failed to construct task: ",
`failedRun` = "Failed to run task: ",
`invalidInput` = "Invalid taskInput type: ". -/
inductive ErrKind where
  | notConstructor
  | duplicateType
  | invalidParallel
  | invalidSequence
  | invalidTask
  | unknownTask
  | failedConstruct
  | failedRun
  | invalidInput
deriving DecidableEq

/-- Thrown faults.  `runnerEx kind detail prev` is a `TaskRunnerException`
whose message is the `kind` prefix followed by the (stringified) `detail`
value, with optional wrapped previous error `prev`; `refError name` is the
`ReferenceError` thrown when an undeclared identifier `name` is read;
`userEx v` is an arbitrary value thrown by user task code; `fuelOut` is an
artifact of the bounded-depth embedding of the recursive dispatcher and is
never raised below the nesting depth of the input. -/
inductive Err where
  | runnerEx (kind : ErrKind) (detail : Value) (prev : Option Err)
  | refError (name : String)
  | userEx (v : Value)
  | fuelOut

/-! ## Keyed structures

JavaScript object semantics for field lists: a read returns the (unique)
entry for the key, a write to an existing key keeps its position, a write to
a fresh key appends it.  The operations are shared between embedded objects
(`Value.vObj`) and the task-type registry. -/

/-- First entry for key `k`, if any (field lists of real JS objects have
unique keys, so the first entry is the only one). -/
def getKey {α : Type} : List (String × α) → String → Option α
  | [], _ => none
  | (k', x) :: rest, k => if k' = k then some x else getKey rest k

/-- Property write: replace the entry for `k` in place, or append it. -/
def setKey {α : Type} : List (String × α) → String → α → List (String × α)
  | [], k, x => [(k, x)]
  | (k', y) :: rest, k, x =>
    if k' = k then (k, x) :: rest else (k', y) :: setKey rest k x

/-- `typeof v === 'object'` (true for plain objects, arrays, promises and
`null`). -/
def isObjectTypeof : Value → Bool
  | .vObj _ | .vArr _ | .vPromise _ | .vNull => true
  | _ => false

/-- JavaScript truthiness of the embedded values.  Every object (including
the empty array and the empty plain object) is truthy; `NaN` does not arise
in the integer embedding. -/
def truthy : Value → Bool
  | .vNull | .vUndefined => false
  | .vBool b => b
  | .vNum n => n != 0
  | .vStr s => s != ""
  | .vArr _ | .vObj _ | .vPromise _ => true

/-- Modelled from the spec: the structured-object predicate `isPojo` from
`@squirrel-forge/node-objection` (external collaborator, not part of this
repository) answers "is this value a plain keyed mapping (not an array, not
a class instance with custom behavior)?". -/
def isPojoV : Value → Bool
  | .vObj _ => true
  | _ => false

/-- `v instanceof Array`. -/
def Value.isArray : Value → Bool
  | .vArr _ => true
  | _ => false

/-- Property read `v[k]`: on a plain object the entry for `k`, `undefined`
when absent; reading a named property of a non-object value of the embedded
fragment yields `undefined` (no named claim reads index or prototype
properties). -/
def getField (v : Value) (k : String) : Value :=
  match v with
  | .vObj fields => (getKey fields k).getD .vUndefined
  | _ => .vUndefined

/-- Property write `v[k] = x`: acts on plain objects; on any other value the
sloppy-mode assignment is a silent no-op. -/
def setField (v : Value) (k : String) (x : Value) : Value :=
  match v with
  | .vObj fields => .vObj (setKey fields k x)
  | _ => v

/-! ## The runner state and the leaf task interface -/

/-- A constructed task instance, reduced to the one capability the runner
uses: its asynchronous `run(...args)` method, which settles with a value
(a stats object or `null`) or rejects.  Leaf tasks of the embedded fragment
are pure functions of their arguments; tasks that re-enter the dispatcher
are outside the fragment (no frozen claim needs them). -/
structure TaskInst where
  runFn : List Value → Except Err Value

/-- A registered task constructor: `new TaskConstructor(runner, options)`
either throws or yields an instance.  The back-reference to the runner is
dropped (the embedded tasks never use it). -/
structure TaskCtor where
  construct : Value → Except Err TaskInst

/-- The `TaskRunner` state: strict-mode flag, whether a notification
callback is configured, the optional task-data preprocessing hook (which
mutates the descriptor's fields in place), and the task-type registry
`_types`. -/
structure TaskRunner where
  strict : Bool
  notify : Bool
  hook : Option (List (String × Value) → List (String × Value))
  types : List (String × TaskCtor)

/-- `TaskRunner.error`: throw in strict mode, otherwise hand the fault to
the notification callback when one is configured.  Returns the thrown
error (if any) and the list of faults delivered to the callback. -/
def TaskRunner.error (r : TaskRunner) (e : Err) : Option Err × List Err :=
  if r.strict then (some e, []) else (none, if r.notify then [e] else [])

/-- `this.error(e); return res` — the recurring fault-then-yield pattern of
the runner methods, packaged as an `Except` outcome. -/
def errorReturn (r : TaskRunner) (e : Err) (res : Value) :
    Except Err (Value × List Err) :=
  match r.error e with
  | (some ex, _) => .error ex
  | (none, log) => .ok (res, log)

/-- `TaskRunner.register` (P1 lines 108–118, identical in P0).  The
`TaskConstructor` argument is `some c` when it is a function and `none`
otherwise (`typeof TaskConstructor !== 'function'`).  Mutation of `_types`
persists across a strict-mode throw, so the post-state is returned in every
case alongside the thrown error and the notification log. -/
def TaskRunner.register (r : TaskRunner) (name : String) (ctor : Option TaskCtor)
    (replace : Bool) : TaskRunner × Option Err × List Err :=
  match ctor with
  | none =>
    let (thrown, log) := r.error (.runnerEx .notConstructor (.vStr name) none)
    (r, thrown, log)
  | some c =>
    if !replace && (getKey r.types name).isSome then
      let (thrown, log) := r.error (.runnerEx .duplicateType (.vStr name) none)
      (r, thrown, log)
    else
      ({ r with types := setKey r.types name c }, none, [])

/-- `TaskRunner.getTaskConstructor`: pure registry lookup; the stored
values are always functions, hence truthy, so the source's truthiness test
is existence. -/
def TaskRunner.getTaskConstructor (r : TaskRunner) (name : String) : Option TaskCtor :=
  match getKey r.types name with
  | some c => some c
  | none => none

/-! ## The leaf-execution primitive `task`

`TaskRunner.task` mutates the caller's descriptor object in place while
normalizing it; the embedding therefore returns the final state of that
object alongside the outcome. -/

/-- The guard of P1 `task` lines 187–190:
`!taskData || typeof taskData !== 'object' || typeof taskData.type !== 'string' || !taskData.type.length`,
negated. -/
def validTaskData (v : Value) : Bool :=
  truthy v && isObjectTypeof v &&
    (match getField v "type" with
     | .vStr s => s.length != 0
     | _ => false)

/-- `if ( this._parser ) this._parser( taskData )`: the hook mutates the
descriptor's fields in place (its return value is ignored), so the object
stays an object. -/
def applyHook (r : TaskRunner) (v : Value) : Value :=
  match r.hook with
  | none => v
  | some h =>
    match v with
    | .vObj fields => .vObj (h fields)
    | _ => v

/-- `if ( !isPojo( taskData.options ) ) taskData.options = {}`. -/
def normalizeOptions (v : Value) : Value :=
  if isPojoV (getField v "options") then v else setField v "options" (.vObj [])

/-- `if ( taskData.id ) taskData.options.id = taskData.id`. -/
def injectId (v : Value) : Value :=
  if truthy (getField v "id") then
    setField v "options" (setField (getField v "options") "id" (getField v "id"))
  else v

/-- `if ( !( taskData.args instanceof Array ) ) taskData.args = taskData.args ? [ taskData.args ] : []`. -/
def normalizeArgs (v : Value) : Value :=
  match getField v "args" with
  | .vArr _ => v
  | a => setField v "args" (if truthy a then .vArr [a] else .vArr [])

/-- The descriptor state after the parser hook and the three normalization
steps of `task` (P1 lines 192–210, P0 lines 158–176). -/
def normalizeTaskData (r : TaskRunner) (v : Value) : Value :=
  normalizeArgs (injectId (normalizeOptions (applyHook r v)))

/-- The registry key `taskData.type` is read again after the parser hook; a
hook that replaces it with a non-string value would be coerced to a property
key by JavaScript — that corner is treated as a registry miss here and is
unreachable in every theorem below (the hook is pinned to `none` wherever
`task` runs past validation). -/
def typeKey (v : Value) : String :=
  match getField v "type" with
  | .vStr s => s
  | _ => ""

/-- The normalized `taskData.args`, spread into the `run` call. -/
def argsList (v : Value) : List Value :=
  match getField v "args" with
  | .vArr l => l
  | _ => []

/-- `TaskRunner.task` (P1 lines 184–236; P0 lines 150–202 differs only in
the shape guard, which P0 reduces to the `type` test).  Returns the final
state of the caller's `taskData` object (in-place mutation made explicit)
and the outcome: the value `run` settled with, or `null` after a reported
fault, or the fault itself in strict mode.  The error messages append
`taskData.type`; the embedding records that value as the fault's detail. -/
def TaskRunner.task (r : TaskRunner) (taskData : Value) :
    Value × Except Err (Value × List Err) :=
  if !validTaskData taskData then
    (taskData, errorReturn r (.runnerEx .invalidTask (getField taskData "type") none) .vNull)
  else
    let d := normalizeTaskData r taskData
    match r.getTaskConstructor (typeKey d) with
    | none => (d, errorReturn r (.runnerEx .unknownTask (getField d "type") none) .vNull)
    | some c =>
      match c.construct (getField d "options") with
      | .error e =>
        (d, errorReturn r (.runnerEx .failedConstruct (getField d "type") (some e)) .vNull)
      | .ok inst =>
        match inst.runFn (argsList d) with
        | .error e =>
          (d, errorReturn r (.runnerEx .failedRun (getField d "type") (some e)) .vNull)
        | .ok stats => (d, .ok (stats, []))

/-! ## The recursive dispatcher

The recursion is bounded by explicit fuel so that every definition stays
structurally recursive and computable; `Err.fuelOut` is never reached when
the fuel exceeds the nesting depth of the input.  The single-threaded event
loop is serialized: branches are evaluated in entry order, which is the
order they are started in the source. -/

/-- The body of P1 `sequence` lines 172–175: iterate in order, awaiting each
recursive `run` call before starting the next, collecting results by
position; a strict-mode fault aborts the loop. -/
def seqResults (f : Value → Except Err (Value × List Err)) :
    List Value → Except Err (List Value × List Err)
  | [] => .ok ([], [])
  | v :: rest =>
    match f v with
    | .error e => .error e
    | .ok (res, log) =>
      match seqResults f rest with
      | .error e => .error e
      | .ok (results, log2) => .ok (res :: results, log ++ log2)

/-- P1 `sequence` (lines 164–176), parameterized by the recursive `run`
call.  The message of the shape fault appends `typeof taskMap`; the
embedding records the offending value itself as the detail. -/
def TaskRunner.sequenceWith (r : TaskRunner)
    (f : Value → Except Err (Value × List Err)) (taskMap : Value) :
    Except Err (Value × List Err) :=
  match taskMap with
  | .vArr l =>
    match seqResults f l with
    | .error e => .error e
    | .ok (results, log) => .ok (.vArr results, log)
  | _ => errorReturn r (.runnerEx .invalidSequence taskMap none) (.vArr [])

/-- The loop of P1 `parallel` lines 146–154: `stats[ name ] = this.run( value )`
stores the promise itself in the result object and `tasks` collects the same
promises; `await Promise.all( tasks )` waits for them but the entries are
never replaced by the settled values.  By the time `parallel` returns, each
stored promise is settled with its run's value — recorded as `vPromise res`.
A rejection (strict mode) propagates through the joint await. -/
def parResults (f : Value → Except Err (Value × List Err)) :
    List (String × Value) → Except Err (List (String × Value) × List Err)
  | [] => .ok ([], [])
  | (name, v) :: rest =>
    match f v with
    | .error e => .error e
    | .ok (res, log) =>
      match parResults f rest with
      | .error e => .error e
      | .ok (entries, log2) => .ok ((name, .vPromise res) :: entries, log ++ log2)

/-- `typeof taskMap.type === 'string'`. -/
def hasStringType (v : Value) : Bool :=
  match getField v "type" with
  | .vStr _ => true
  | _ => false

/-- P1 `parallel` (lines 139–156), parameterized by the recursive `run`
call: rejects anything that is not a plain object or that carries a string
`type` field (yielding an empty mapping), otherwise runs every entry and
returns the mapping from the same keys to the collected promises. -/
def TaskRunner.parallelWith (r : TaskRunner)
    (f : Value → Except Err (Value × List Err)) (taskMap : Value) :
    Except Err (Value × List Err) :=
  match taskMap with
  | .vObj fields =>
    if hasStringType (.vObj fields) then
      errorReturn r (.runnerEx .invalidParallel (.vObj fields) none) (.vObj [])
    else
      match parResults f fields with
      | .error e => .error e
      | .ok (entries, log) => .ok (.vObj entries, log)
  | _ => errorReturn r (.runnerEx .invalidParallel taskMap none) (.vObj [])

/-- P1 `run` (lines 244–269) with one repair: the four reads of the
out-of-scope identifier `taskMap` are read as the parameter `taskInput`.
The literal body throws a `ReferenceError` before any branch is taken (see
`TaskRunner.runLiteral`); the repair is the one the surrounding comments
("Arrays are run in sequence, array order matters", "All other objects are
assumed to be parallel maps") and the delegations themselves dictate.
Routing: array → `sequence`; plain object with truthy `type` → `task`;
other plain object → `parallel`; anything else → "Invalid taskInput type"
fault and `null`. -/
def TaskRunner.run (r : TaskRunner) : Nat → Value → Except Err (Value × List Err)
  | 0, _ => .error .fuelOut
  | fuel + 1, taskInput =>
    if taskInput.isArray then
      r.sequenceWith (r.run fuel) taskInput
    else if isPojoV taskInput then
      if truthy (getField taskInput "type") then
        (r.task taskInput).2
      else
        r.parallelWith (r.run fuel) taskInput
    else
      errorReturn r (.runnerEx .invalidInput taskInput none) .vNull

/-- P1 `sequence` with its recursive `run` calls tied to the dispatcher. -/
def TaskRunner.sequence (r : TaskRunner) (fuel : Nat) (taskMap : Value) :
    Except Err (Value × List Err) :=
  r.sequenceWith (r.run fuel) taskMap

/-- P1 `parallel` with its recursive `run` calls tied to the dispatcher. -/
def TaskRunner.parallel (r : TaskRunner) (fuel : Nat) (taskMap : Value) :
    Except Err (Value × List Err) :=
  r.parallelWith (r.run fuel) taskMap

/-- Reading an identifier that has no binding in scope throws
`ReferenceError: <name> is not defined`. -/
def lookupFree (name : String) : Except Err Value := .error (.refError name)

/-- P1 `run` (lines 244–269) exactly as written: the function's parameter is
`taskInput`, but the branch scrutinees and the `sequence`/`parallel`
delegations read the identifier `taskMap`, which has no binding in the
function body or any enclosing scope.  Evaluating `taskMap instanceof Array`
therefore throws before any routing happens, whatever the input. -/
def TaskRunner.runLiteral (r : TaskRunner) : Nat → Value → Except Err (Value × List Err)
  | 0, _ => .error .fuelOut
  | fuel + 1, taskInput =>
    match lookupFree "taskMap" with
    | .error e => .error e
    | .ok taskMap =>
      if taskMap.isArray then
        r.sequenceWith (r.runLiteral fuel) taskMap
      else if isPojoV taskMap then
        if truthy (getField taskInput "type") then
          (r.task taskInput).2
        else
          r.parallelWith (r.runLiteral fuel) taskMap
      else
        errorReturn r (.runnerEx .invalidInput taskInput none) .vNull

/-! ## The older dispatcher version (P0)

P0 assigns the container semantics the other way around: arrays are run via
`parallel` (which takes a list, has no validation, and resolves to the list
of settled values via `Promise.all`), and plain objects without a `type`
are run via `sequence` (which walks `Object.entries` in order, awaiting
each, and collects an object of results). -/

/-- P0 `parallel` (lines 116–124): push a recursive `run` promise per
element, `return Promise.all( tasks )` — which resolves to the list of
settled values.  There is no validation: a non-array input has no numeric
`length`, the loop body never executes, and the call resolves to an empty
list (the `null`/`undefined` crash corner is outside the routed fragment:
P0 `run` only delegates arrays here). -/
def TaskRunner.parallelP0 (r : TaskRunner)
    (f : Value → Except Err (Value × List Err)) (taskMap : Value) :
    Except Err (Value × List Err) :=
  match taskMap with
  | .vArr l =>
    match seqResults f l with
    | .error e => .error e
    | .ok (results, log) => .ok (.vArr results, log)
  | _ => .ok (.vArr [], [])

/-- The loop of P0 `sequence` lines 137–140: `stats[ name ] = await this.run( value )`
in entry order — like `parResults` but storing the settled value, not the
promise. -/
def seqEntriesP0 (f : Value → Except Err (Value × List Err)) :
    List (String × Value) → Except Err (List (String × Value) × List Err)
  | [] => .ok ([], [])
  | (name, v) :: rest =>
    match f v with
    | .error e => .error e
    | .ok (res, log) =>
      match seqEntriesP0 f rest with
      | .error e => .error e
      | .ok (entries, log2) => .ok ((name, res) :: entries, log ++ log2)

/-- P0 `sequence` (lines 132–142): no validation; walks `Object.entries` of
the input in order, awaiting each recursive `run`, collecting an object of
results.  `Object.entries` of an array yields index-keyed entries; of any
other non-object it yields nothing. -/
def TaskRunner.sequenceP0 (r : TaskRunner)
    (f : Value → Except Err (Value × List Err)) (taskMap : Value) :
    Except Err (Value × List Err) :=
  match taskMap with
  | .vObj fields =>
    match seqEntriesP0 f fields with
    | .error e => .error e
    | .ok (entries, log) => .ok (.vObj entries, log)
  | .vArr l =>
    match seqEntriesP0 f (l.enum.map fun p => (toString p.1, p.2)) with
    | .error e => .error e
    | .ok (entries, log) => .ok (.vObj entries, log)
  | _ => .ok (.vObj [], [])

/-- P0 `run` (lines 210–235): array → `parallel`, plain object with truthy
`type` → `task` (P0 `task` behaves as P1 `task` on every object input),
other plain object → `sequence`, anything else → "Invalid taskMap type"
fault and `null`. -/
def TaskRunner.runP0 (r : TaskRunner) : Nat → Value → Except Err (Value × List Err)
  | 0, _ => .error .fuelOut
  | fuel + 1, taskMap =>
    if taskMap.isArray then
      r.parallelP0 (r.runP0 fuel) taskMap
    else if isPojoV taskMap then
      if truthy (getField taskMap "type") then
        (r.task taskMap).2
      else
        r.sequenceP0 (r.runP0 fuel) taskMap
    else
      errorReturn r (.runnerEx .invalidInput taskMap none) .vNull

/-! ## The Task lifecycle base class (`src/classes/Task.js`)

The construction-time collaborators `cloneObject`, `mergeObject`, `strand`
and `Timer` come from `@squirrel-forge/node-util` / `node-objection` and are
not part of this repository; they are modelled from the spec (§6). -/

/-- Modelled from the spec: the deep-clone utility of
`@squirrel-forge/node-objection` — a structural copy independent of its
source.  In this immutable value embedding a structural copy is the value
itself. -/
def cloneObject (v : Value) : Value := v

mutual

/-- Modelled from the spec: the deep-merge utility of
`@squirrel-forge/node-objection` — a recursive override-merge of keyed
mappings where later values win and nested overrides do not clobber sibling
keys.  Processes the source entries in order. -/
def mergeFields : List (String × Value) → List (String × Value) →
    List (String × Value)
  | t, [] => t
  | t, (k, sv) :: rest => mergeFields (setKey t k (mergeVal t k sv)) rest
termination_by _ s => (sizeOf s, 0)
decreasing_by
  all_goals simp_wf
  all_goals omega

/-- The value written for key `k` when merging source value `sv` over target
`t`: when both sides hold plain keyed mappings the merge recurses, otherwise
the later (source) value wins — arrays are replaced wholesale. -/
def mergeVal (t : List (String × Value)) (k : String) (sv : Value) : Value :=
  match sv with
  | .vObj sf =>
    match getKey t k with
    | some tv =>
      match tv with
      | .vObj tf => .vObj (mergeFields tf sf)
      | _ => .vObj sf
    | none => .vObj sf
  | _ => sv
termination_by (sizeOf sv, 1)
decreasing_by
  all_goals simp_wf
  all_goals omega

end

/-- `mergeObject( target, source, ... )` on embedded values; only object
pairs merge (the runner always passes the effective options object and a
plain options object). -/
def mergeObject (t s : Value) : Value :=
  match t, s with
  | .vObj tf, .vObj sf => .vObj (mergeFields tf sf)
  | _, _ => t

/-- A constructed `Task`, reduced to the state `stats` reads: the effective
options `this._`.  The timer keyed to the construction moment is the
external elapsed-time collaborator; its reading is passed to `stats` as an
argument. -/
structure Task where
  effective : Value

/-- The `Task` constructor (Task.js lines 33–75): default the `id` of the
defaults to a fresh unique string when it is falsy, deep-clone the defaults
into `this._`, then deep-merge the caller's options on top when they are a
truthy plain object.  `fresh` stands for the external `strand()` unique-id
generator (modelled from the spec). -/
def Task.construct (options defaults : Value) (fresh : String) : Task :=
  let d := if truthy (getField defaults "id") then defaults
           else setField defaults "id" (.vStr fresh)
  let base := cloneObject d
  ⟨if truthy options && isPojoV options then mergeObject base options else base⟩

/-- `Task.stats` (Task.js lines 82–88): force-set `data.id` to the
effective id and `data.time` to the elapsed measurement since construction
(`this.timer.end( 'construct' )`, passed in as `elapsed`), returning the
enriched mapping. -/
def Task.stats (t : Task) (elapsed : Value) (data : Value) : Value :=
  setField (setField data "id" (getField t.effective "id")) "time" elapsed

/-- The abstract base `Task.run` (Task.js lines 97–99): always rejects with
the "not implemented" fault, embedded as a thrown user-level error. -/
def Task.runBase : Except Err Value :=
  .error (.userEx (.vStr "Task must implement a run method"))

/-! ## Supporting lemmas -/

theorem getKey_setKey_self {α : Type} (l : List (String × α)) (k : String) (x : α) :
    getKey (setKey l k x) k = some x := by
  induction l with
  | nil => simp [setKey, getKey]
  | cons hd t ih =>
    obtain ⟨k', y⟩ := hd
    by_cases hk : k' = k
    · subst hk; simp [setKey, getKey]
    · simp [setKey, getKey, hk, ih]

theorem getKey_setKey_ne {α : Type} (l : List (String × α)) (k' k : String) (x : α)
    (h : k' ≠ k) : getKey (setKey l k' x) k = getKey l k := by
  induction l with
  | nil => simp [setKey, getKey, h]
  | cons hd t ih =>
    obtain ⟨k0, y⟩ := hd
    by_cases h0 : k0 = k'
    · subst h0; simp [setKey, getKey, h]
    · by_cases h1 : k0 = k
      · simp [setKey, getKey, h0, h1, Ne.symm h]
      · simp [setKey, getKey, h0, h1, ih]

theorem mem_keys_setKey {α : Type} (l : List (String × α)) (k : String) (x : α) :
    ∀ k1 : String, k1 ∈ (setKey l k x).map Prod.fst → k1 = k ∨ k1 ∈ l.map Prod.fst := by
  induction l with
  | nil =>
    intro k1 h
    simp [setKey] at h
    exact Or.inl h
  | cons hd t ih =>
    obtain ⟨k0, y⟩ := hd
    intro k1 h
    by_cases h0 : k0 = k
    · subst h0
      have hs : setKey ((k0, y) :: t) k0 x = (k0, x) :: t := by simp [setKey]
      rw [hs] at h
      simp only [List.map_cons, List.mem_cons] at h
      rcases h with h | h
      · exact Or.inl h
      · exact Or.inr (List.mem_cons_of_mem _ h)
    · have hs : setKey ((k0, y) :: t) k x = (k0, y) :: setKey t k x := by
        simp [setKey, h0]
      rw [hs] at h
      simp only [List.map_cons, List.mem_cons] at h
      rcases h with h | h
      · exact Or.inr (by simp [h])
      · rcases ih k1 h with h1 | h1
        · exact Or.inl h1
        · exact Or.inr (List.mem_cons_of_mem _ h1)

theorem keys_setKey_nodup {α : Type} (l : List (String × α)) (k : String) (x : α) :
    (l.map Prod.fst).Nodup → ((setKey l k x).map Prod.fst).Nodup := by
  induction l with
  | nil => intro _; simp [setKey]
  | cons hd t ih =>
    obtain ⟨k0, y⟩ := hd
    intro h
    simp only [List.map_cons, List.nodup_cons] at h
    by_cases h0 : k0 = k
    · subst h0
      have hs : setKey ((k0, y) :: t) k0 x = (k0, x) :: t := by simp [setKey]
      rw [hs]
      simp only [List.map_cons, List.nodup_cons]
      exact h
    · have hs : setKey ((k0, y) :: t) k x = (k0, y) :: setKey t k x := by
        simp [setKey, h0]
      rw [hs]
      simp only [List.map_cons, List.nodup_cons]
      refine ⟨?_, ih h.2⟩
      intro hmem
      rcases mem_keys_setKey t k x k0 hmem with h1 | h1
      · exact h0 h1
      · exact h.1 h1

theorem getField_setField_self (l : List (String × Value)) (k : String) (x : Value) :
    getField (setField (.vObj l) k x) k = x := by
  simp [setField, getField, getKey_setKey_self]

theorem getField_setField_ne (v : Value) (k' k : String) (x : Value) (h : k' ≠ k) :
    getField (setField v k' x) k = getField v k := by
  cases v <;> simp [setField, getField]
  rw [getKey_setKey_ne _ _ _ _ h]

theorem setField_vObj (l : List (String × Value)) (k : String) (x : Value) :
    setField (.vObj l) k x = .vObj (setKey l k x) := rfl

theorem runnerEx_some_ne (e : Err) (k : ErrKind) (d : Value) :
    Err.runnerEx k d (some e) ≠ e := by
  intro h
  have h2 := congrArg sizeOf h
  simp at h2
  omega

theorem length_ne_zero_of_ne_empty (s : String) (h : s ≠ "") : s.length ≠ 0 := by
  intro h0
  apply h
  cases s with
  | mk data =>
    simp [String.length] at h0
    subst h0
    rfl

theorem mergeVal_not_obj (t : List (String × Value)) (k : String) (sv : Value)
    (h : ∀ f, sv ≠ .vObj f) : mergeVal t k sv = sv := by
  cases sv <;> first
    | exact absurd rfl (h _)
    | (rw [mergeVal]; try nofun)

theorem getKey_mergeFields_not_mem (src : List (String × Value)) :
    ∀ (t : List (String × Value)) (k : String), k ∉ src.map Prod.fst →
      getKey (mergeFields t src) k = getKey t k := by
  induction src with
  | nil =>
    intro t k _
    rw [mergeFields]
  | cons hd rest ih =>
    obtain ⟨k0, sv⟩ := hd
    intro t k h
    simp only [List.map_cons, List.mem_cons, not_or] at h
    rw [mergeFields, ih _ _ h.2, getKey_setKey_ne _ _ _ _ (fun hh => h.1 hh.symm)]

theorem getKey_mergeFields_of_getKey (src : List (String × Value)) :
    ∀ (t : List (String × Value)) (k : String) (sv : Value),
      (src.map Prod.fst).Nodup → getKey src k = some sv → (∀ f, sv ≠ .vObj f) →
      getKey (mergeFields t src) k = some sv := by
  induction src with
  | nil =>
    intro t k sv _ hget _
    simp [getKey] at hget
  | cons hd rest ih =>
    obtain ⟨k0, s0⟩ := hd
    intro t k sv hnd hget hobj
    simp only [List.map_cons, List.nodup_cons] at hnd
    rw [mergeFields]
    by_cases h0 : k0 = k
    · subst h0
      simp [getKey] at hget
      subst hget
      rw [getKey_mergeFields_not_mem rest _ _ hnd.1,
          mergeVal_not_obj _ _ _ hobj, getKey_setKey_self]
    · simp only [getKey, if_neg h0] at hget
      exact ih _ _ _ hnd.2 hget hobj

theorem applyHook_none (r : TaskRunner) (v : Value) (h : r.hook = none) :
    applyHook r v = v := by
  unfold applyHook
  rw [h]

theorem getField_normalizeOptions_ne (v : Value) (k : String) (h : k ≠ "options") :
    getField (normalizeOptions v) k = getField v k := by
  unfold normalizeOptions
  by_cases hp : isPojoV (getField v "options") = true
  · rw [if_pos hp]
  · rw [if_neg hp, getField_setField_ne _ _ _ _ (Ne.symm h)]

theorem getField_injectId_ne (v : Value) (k : String) (h : k ≠ "options") :
    getField (injectId v) k = getField v k := by
  unfold injectId
  by_cases ht : truthy (getField v "id") = true
  · rw [if_pos ht, getField_setField_ne _ _ _ _ (Ne.symm h)]
  · rw [if_neg ht]

theorem getField_normalizeArgs_ne (v : Value) (k : String) (h : k ≠ "args") :
    getField (normalizeArgs v) k = getField v k := by
  unfold normalizeArgs
  cases ha : getField v "args" <;>
    first
      | rfl
      | exact getField_setField_ne _ _ _ _ (Ne.symm h)

theorem getField_normalizeTaskData_ne (r : TaskRunner) (v : Value) (k : String)
    (hh : r.hook = none) (h1 : k ≠ "options") (h2 : k ≠ "args") :
    getField (normalizeTaskData r v) k = getField v k := by
  unfold normalizeTaskData
  rw [applyHook_none _ _ hh, getField_normalizeArgs_ne _ _ h2,
      getField_injectId_ne _ _ h1, getField_normalizeOptions_ne _ _ h1]

theorem normalizeOptions_obj (l : List (String × Value)) :
    ∃ l1, normalizeOptions (.vObj l) = .vObj l1 := by
  unfold normalizeOptions
  by_cases hp : isPojoV (getField (.vObj l) "options") = true
  · rw [if_pos hp]; exact ⟨l, rfl⟩
  · rw [if_neg hp]; exact ⟨setKey l "options" (.vObj []), rfl⟩

theorem injectId_obj (l : List (String × Value)) :
    ∃ l1, injectId (.vObj l) = .vObj l1 := by
  unfold injectId
  by_cases ht : truthy (getField (.vObj l) "id") = true
  · rw [if_pos ht]
    exact ⟨setKey l "options"
      (setField (getField (.vObj l) "options") "id" (getField (.vObj l) "id")), rfl⟩
  · rw [if_neg ht]; exact ⟨l, rfl⟩

theorem getField_normalizeOptions_options (l : List (String × Value)) :
    getField (normalizeOptions (.vObj l)) "options" =
      if isPojoV (getField (.vObj l) "options") then getField (.vObj l) "options"
      else .vObj [] := by
  unfold normalizeOptions
  by_cases hp : isPojoV (getField (.vObj l) "options") = true
  · rw [if_pos hp, if_pos hp]
  · rw [if_neg hp, if_neg hp, getField_setField_self]

theorem getField_normalizeTaskData_options (r : TaskRunner) (l : List (String × Value))
    (hh : r.hook = none) :
    getField (normalizeTaskData r (.vObj l)) "options" =
      if truthy (getField (.vObj l) "id") then
        setField
          (if isPojoV (getField (.vObj l) "options") then getField (.vObj l) "options"
           else .vObj [])
          "id" (getField (.vObj l) "id")
      else
        (if isPojoV (getField (.vObj l) "options") then getField (.vObj l) "options"
         else .vObj []) := by
  unfold normalizeTaskData
  rw [applyHook_none _ _ hh, getField_normalizeArgs_ne _ _ (by decide)]
  obtain ⟨l1, h1⟩ := normalizeOptions_obj l
  have hid : getField (normalizeOptions (.vObj l)) "id" = getField (.vObj l) "id" :=
    getField_normalizeOptions_ne _ _ (by decide)
  have hopts := getField_normalizeOptions_options l
  unfold injectId
  rw [hid]
  by_cases ht : truthy (getField (.vObj l) "id") = true
  · rw [if_pos ht, if_pos ht, h1, getField_setField_self]
    rw [h1] at hopts
    rw [hopts]
  · rw [if_neg ht, if_neg ht, hopts]

theorem getField_normalizeTaskData_args_arr (r : TaskRunner) (l : List (String × Value))
    (al : List Value) (hh : r.hook = none)
    (ha : getField (.vObj l) "args" = .vArr al) :
    getField (normalizeTaskData r (.vObj l)) "args" = .vArr al := by
  unfold normalizeTaskData
  rw [applyHook_none _ _ hh]
  have hA : getField (injectId (normalizeOptions (.vObj l))) "args" =
      getField (.vObj l) "args" := by
    rw [getField_injectId_ne _ _ (by decide), getField_normalizeOptions_ne _ _ (by decide)]
  unfold normalizeArgs
  rw [hA, ha]
  exact hA.trans ha

theorem getField_normalizeTaskData_args_wrap (r : TaskRunner) (l : List (String × Value))
    (hh : r.hook = none) (ht : truthy (getField (.vObj l) "args") = true)
    (hna : ∀ al, getField (.vObj l) "args" ≠ .vArr al) :
    getField (normalizeTaskData r (.vObj l)) "args" =
      .vArr [getField (.vObj l) "args"] := by
  unfold normalizeTaskData
  rw [applyHook_none _ _ hh]
  have hA : getField (injectId (normalizeOptions (.vObj l))) "args" =
      getField (.vObj l) "args" := by
    rw [getField_injectId_ne _ _ (by decide), getField_normalizeOptions_ne _ _ (by decide)]
  obtain ⟨l1, h1⟩ := normalizeOptions_obj l
  obtain ⟨l2, h2⟩ := injectId_obj l1
  have hV2 : injectId (normalizeOptions (.vObj l)) = .vObj l2 := by rw [h1, h2]
  unfold normalizeArgs
  rw [hA]
  cases hc : getField (.vObj l) "args" <;>
    first
      | exact absurd hc (hna _)
      | (rw [hc] at ht; rw [hV2]; simp [ht, getField_setField_self])

theorem getField_normalizeTaskData_args_empty (r : TaskRunner) (l : List (String × Value))
    (hh : r.hook = none) (ht : truthy (getField (.vObj l) "args") = false) :
    getField (normalizeTaskData r (.vObj l)) "args" = .vArr [] := by
  unfold normalizeTaskData
  rw [applyHook_none _ _ hh]
  have hA : getField (injectId (normalizeOptions (.vObj l))) "args" =
      getField (.vObj l) "args" := by
    rw [getField_injectId_ne _ _ (by decide), getField_normalizeOptions_ne _ _ (by decide)]
  obtain ⟨l1, h1⟩ := normalizeOptions_obj l
  obtain ⟨l2, h2⟩ := injectId_obj l1
  have hV2 : injectId (normalizeOptions (.vObj l)) = .vObj l2 := by rw [h1, h2]
  unfold normalizeArgs
  rw [hA]
  cases hc : getField (.vObj l) "args"
  case vNull =>
    rw [hc] at ht; rw [hV2]; simp only [getField_setField_self]; simp [ht]
  case vUndefined =>
    rw [hc] at ht; rw [hV2]; simp only [getField_setField_self]; simp [ht]
  case vBool b =>
    rw [hc] at ht; rw [hV2]; simp only [getField_setField_self]; simp [ht]
  case vNum n =>
    rw [hc] at ht; rw [hV2]; simp only [getField_setField_self]; simp [ht]
  case vStr s =>
    rw [hc] at ht; rw [hV2]; simp only [getField_setField_self]; simp [ht]
  case vArr al =>
    rw [hc] at ht; exact absurd ht (by simp [truthy])
  case vObj f =>
    rw [hc] at ht; exact absurd ht (by simp [truthy])
  case vPromise p =>
    rw [hc] at ht; exact absurd ht (by simp [truthy])

theorem seqResults_ok (f : Value → Except Err (Value × List Err)) (l : List Value) :
    ∀ (res : List Value) (log : List Err), seqResults f l = .ok (res, log) →
      res.length = l.length ∧ ∃ logs : List (List Err), logs.length = l.length ∧
        log = logs.flatten ∧
        ∀ i (h1 : i < l.length) (h2 : i < res.length) (h3 : i < logs.length),
          f (l.get ⟨i, h1⟩) = .ok (res.get ⟨i, h2⟩, logs.get ⟨i, h3⟩) := by
  induction l with
  | nil =>
    intro res log h
    simp only [seqResults, Except.ok.injEq, Prod.mk.injEq] at h
    obtain ⟨h1, h2⟩ := h
    subst h1; subst h2
    exact ⟨rfl, [], rfl, rfl, fun i h1 => absurd h1 (by simp)⟩
  | cons v rest ih =>
    intro res log h
    rw [seqResults] at h
    cases hf : f v with
    | error e => rw [hf] at h; cases h
    | ok p =>
      obtain ⟨res0, log0⟩ := p
      rw [hf] at h
      cases hs : seqResults f rest with
      | error e => rw [hs] at h; cases h
      | ok q =>
        obtain ⟨results, log2⟩ := q
        rw [hs] at h
        simp only [Except.ok.injEq, Prod.mk.injEq] at h
        obtain ⟨h1, h2⟩ := h
        subst h1; subst h2
        obtain ⟨hlen, logs, hll, hjoin, hidx⟩ := ih results log2 hs
        refine ⟨by simp [hlen], log0 :: logs, by simp [hll], by simp [hjoin], ?_⟩
        intro i h1 h2 h3
        cases i with
        | zero => simpa using hf
        | succ j =>
          simpa using hidx j (by simpa using h1) (by simpa using h2) (by simpa using h3)

theorem parResults_keys (f : Value → Except Err (Value × List Err))
    (l : List (String × Value)) :
    ∀ (entries : List (String × Value)) (log : List Err),
      parResults f l = .ok (entries, log) →
      entries.map Prod.fst = l.map Prod.fst := by
  induction l with
  | nil =>
    intro entries log h
    simp only [parResults, Except.ok.injEq, Prod.mk.injEq] at h
    rw [← h.1]
  | cons hd rest ih =>
    obtain ⟨name, v⟩ := hd
    intro entries log h
    rw [parResults] at h
    cases hf : f v with
    | error e => rw [hf] at h; cases h
    | ok p =>
      obtain ⟨res, lg⟩ := p
      rw [hf] at h
      cases hs : parResults f rest with
      | error e => rw [hs] at h; cases h
      | ok q =>
        obtain ⟨entries2, lg2⟩ := q
        rw [hs] at h
        simp only [Except.ok.injEq, Prod.mk.injEq] at h
        rw [← h.1]
        simp [ih entries2 lg2 hs]

theorem sequenceWith_arr (r : TaskRunner) (f : Value → Except Err (Value × List Err))
    (l : List Value) :
    r.sequenceWith f (.vArr l) =
      (match seqResults f l with
       | .error e => .error e
       | .ok (results, log) => .ok (.vArr results, log)) := rfl

theorem validTaskData_obj (l : List (String × Value)) (s : String)
    (htype : getKey l "type" = some (.vStr s)) (hne : s ≠ "") :
    validTaskData (.vObj l) = true := by
  have ht : getField (.vObj l) "type" = .vStr s := by simp [getField, htype]
  unfold validTaskData
  rw [ht]
  simp [truthy, isObjectTypeof, length_ne_zero_of_ne_empty s hne]

theorem typeKey_eq (v : Value) (s : String) (h : getField v "type" = .vStr s) :
    typeKey v = s := by
  unfold typeKey
  rw [h]

theorem isPojoV_obj (v : Value) (h : isPojoV v = true) : ∃ ol, v = .vObj ol := by
  cases v <;> first
    | exact ⟨_, rfl⟩
    | exact absurd h (by simp [isPojoV])

/-! ## Concrete fixtures used by the witnesses and counterexamples -/

/-- The fixed stats object the `noop` fixture task settles with. -/
def noopStats : Value := .vObj [("id", .vStr "x"), ("time", .vNum 0)]

/-- A registered task type whose constructor never throws and whose run
settles immediately with `noopStats`. -/
def noopCtor : TaskCtor := ⟨fun _ => .ok ⟨fun _ => .ok noopStats⟩⟩

/-- A task instance whose run settles with the argument list it received —
used to observe exactly what `task` passes to `run`. -/
def echoInst : TaskInst := ⟨fun args => .ok (.vArr args)⟩

/-- A registered task type producing `echoInst`. -/
def echoCtor : TaskCtor := ⟨fun _ => .ok echoInst⟩

/-- The fault the `bad` fixture constructor throws. -/
def boomErr : Err := .userEx (.vStr "boom")

/-- A registered task type whose constructor always throws `boomErr`. -/
def badCtor : TaskCtor := ⟨fun _ => .error boomErr⟩

/-- A second constructor, distinct from `noopCtor`, for the registration
fixtures. -/
def otherCtor : TaskCtor := ⟨fun _ => .ok ⟨fun _ => .ok .vNull⟩⟩

/-- A non-strict runner with a notification callback, no parser hook, and
the three fixture types registered. -/
def rNotify : TaskRunner :=
  ⟨false, true, none, [("t", noopCtor), ("echo", echoCtor), ("bad", badCtor)]⟩

/-- A strict runner with the same registry. -/
def rStrict : TaskRunner :=
  ⟨true, false, none, [("t", noopCtor), ("echo", echoCtor), ("bad", badCtor)]⟩

/-- A minimal task descriptor for the registered `t` type. -/
def taskDesc : Value := .vObj [("type", .vStr "t")]

/-! ## The claims -/

/-- Claim C1 (the code at the failing input): P1 `run` reads the undeclared
identifier `taskMap` (the parameter is `taskInput`), so for every runner
configuration and every input — the empty array `[]` included — the call
rejects with `ReferenceError: taskMap is not defined` instead of routing to
`sequence`/`task`/`parallel`.  The intended routing, obtained by reading
`taskMap` as `taskInput`, is `TaskRunner.run`; its conformance to the
claimed routing is `run_routes_array`/`run_routes_typed`/
`run_routes_untyped`/`run_routes_invalid` below. -/
theorem c1_runLiteral_reference_error :
    ∀ (r : TaskRunner) (fuel : Nat) (v : Value),
      r.runLiteral (fuel + 1) v = .error (.refError "taskMap") :=
  fun _ _ _ => rfl

theorem run_routes_array (r : TaskRunner) (fuel : Nat) (l : List Value) :
    r.run (fuel + 1) (.vArr l) = r.sequence fuel (.vArr l) := rfl

theorem run_routes_typed (r : TaskRunner) (fuel : Nat) (l : List (String × Value))
    (h : truthy (getField (.vObj l) "type") = true) :
    r.run (fuel + 1) (.vObj l) = (r.task (.vObj l)).2 := by
  simp [TaskRunner.run, Value.isArray, isPojoV, h]

theorem run_routes_untyped (r : TaskRunner) (fuel : Nat) (l : List (String × Value))
    (h : truthy (getField (.vObj l) "type") = false) :
    r.run (fuel + 1) (.vObj l) = r.parallel fuel (.vObj l) := by
  simp [TaskRunner.run, TaskRunner.parallel, Value.isArray, isPojoV, h]

theorem run_routes_invalid (r : TaskRunner) (fuel : Nat) (v : Value)
    (h1 : v.isArray = false) (h2 : isPojoV v = false) :
    r.run (fuel + 1) v = errorReturn r (.runnerEx .invalidInput v none) .vNull := by
  simp [TaskRunner.run, h1, h2]

/-- The older P0 router assigns the containers the other way around: an
array is delegated to P0 `parallel`. -/
theorem runP0_routes_array (r : TaskRunner) (fuel : Nat) (l : List Value) :
    r.runP0 (fuel + 1) (.vArr l) = r.parallelP0 (r.runP0 fuel) (.vArr l) := rfl

/-- Claim C2 (the code at the failing input): running the one-entry map
`{ a: { type: "t" } }` through P1 `parallel`, the returned mapping keeps the
key `a`, but its value is the settled promise of the entry's run — not the
StatsRecord `noopStats` that the run itself settles with (third conjunct:
the promise is a different value). -/
theorem c2_parallel_keeps_promise :
    rNotify.parallel 1 (.vObj [("a", taskDesc)]) =
      .ok (.vObj [("a", .vPromise noopStats)], []) ∧
    rNotify.run 1 taskDesc = .ok (noopStats, []) ∧
    Value.vPromise noopStats ≠ noopStats := by
  refine ⟨rfl, rfl, ?_⟩
  simp [noopStats]

/-- Claim C3: a non-array input to `sequence` is reported as an "invalid
sequence type" fault yielding the empty ordered result (thrown in strict
mode, notified otherwise — the `errorReturn` pattern); an array input that
settles does so with an ordered result mirroring the input positions, each
position holding exactly the value its recursive `run` call settled with,
and the notification log is the concatenation of the per-step logs in input
order (each step awaited before the next starts).  The recursive `run` here
is the repaired dispatcher (the literal P1 `run` fault is claim C1). -/
theorem c3_sequence_contract (r : TaskRunner) (fuel : Nat) :
    (∀ v : Value, v.isArray = false →
      r.sequence fuel v = errorReturn r (.runnerEx .invalidSequence v none) (.vArr [])) ∧
    (∀ (l : List Value) (out : Value) (log : List Err),
      r.sequence fuel (.vArr l) = .ok (out, log) →
      ∃ (res : List Value) (logs : List (List Err)),
        out = .vArr res ∧ res.length = l.length ∧ logs.length = l.length ∧
        log = logs.flatten ∧
        ∀ i (h1 : i < l.length) (h2 : i < res.length) (h3 : i < logs.length),
          r.run fuel (l.get ⟨i, h1⟩) = .ok (res.get ⟨i, h2⟩, logs.get ⟨i, h3⟩)) := by
  constructor
  · intro v hv
    unfold TaskRunner.sequence TaskRunner.sequenceWith
    cases v <;> first
      | rfl
      | exact absurd hv (by simp [Value.isArray])
  · intro l out log h
    unfold TaskRunner.sequence at h
    rw [sequenceWith_arr] at h
    cases hs : seqResults (r.run fuel) l with
    | error e => rw [hs] at h; cases h
    | ok p =>
      obtain ⟨results, lg⟩ := p
      rw [hs] at h
      simp only [Except.ok.injEq, Prod.mk.injEq] at h
      obtain ⟨hout, hlog⟩ := h
      obtain ⟨hlen, logs, hll, hjoin, hidx⟩ := seqResults_ok (r.run fuel) l results lg hs
      exact ⟨results, logs, hout.symm, hlen, hll, hlog ▸ hjoin, hidx⟩

/-- Witness for C3: the number `5` is rejected with the empty ordered
result, and the one-element array `[taskDesc]` settles with the one-element
result of its entry's run. -/
theorem c3_witness :
    (rNotify.sequence 1 (.vNum 5) =
      errorReturn rNotify (.runnerEx .invalidSequence (.vNum 5) none) (.vArr [])) ∧
    (∃ (res : List Value) (logs : List (List Err)),
      (Value.vArr [noopStats]) = .vArr res ∧
      res.length = [taskDesc].length ∧ logs.length = [taskDesc].length ∧
      ([] : List Err) = logs.flatten ∧
      ∀ i (h1 : i < [taskDesc].length) (h2 : i < res.length) (h3 : i < logs.length),
        rNotify.run 1 ([taskDesc].get ⟨i, h1⟩) =
          .ok (res.get ⟨i, h2⟩, logs.get ⟨i, h3⟩)) :=
  ⟨(c3_sequence_contract rNotify 1).1 (.vNum 5) rfl,
   (c3_sequence_contract rNotify 1).2 [taskDesc] (.vArr [noopStats]) [] rfl⟩

/-- Claim C4: when the registry already holds `c0` for `name`, a
`register(name, c, replace := false)` with a callable `c` leaves the
registry unchanged — `getTaskConstructor name` still yields `c0` — and
reports the "duplicate type" fault (thrown in strict mode, handed to the
notification callback otherwise); with `replace := true` the entry is
overwritten and the call is silent. -/
theorem c4_register_duplicate (r : TaskRunner) (name : String) (c0 c : TaskCtor)
    (h : getKey r.types name = some c0) :
    ((r.register name (some c) false).1.types = r.types ∧
     (r.register name (some c) false).1.getTaskConstructor name = some c0 ∧
     (r.register name (some c) false).2.1 =
       (if r.strict then some (.runnerEx .duplicateType (.vStr name) none) else none) ∧
     (r.register name (some c) false).2.2 =
       (if r.strict then []
        else if r.notify then [Err.runnerEx .duplicateType (.vStr name) none] else [])) ∧
    ((r.register name (some c) true).1.getTaskConstructor name = some c ∧
     (r.register name (some c) true).2.1 = none ∧
     (r.register name (some c) true).2.2 = []) := by
  cases hstrict : r.strict <;> cases hnotify : r.notify <;>
    simp [TaskRunner.register, TaskRunner.error, TaskRunner.getTaskConstructor, h,
      hstrict, hnotify, getKey_setKey_self]

/-- Witness for C4 at the `rNotify` fixture: after a refused duplicate
registration the original `noopCtor` is still returned, after a forced one
the new `otherCtor` is. -/
theorem c4_witness :
    (rNotify.register "t" (some otherCtor) false).1.getTaskConstructor "t" = some noopCtor ∧
    (rNotify.register "t" (some otherCtor) true).1.getTaskConstructor "t" = some otherCtor :=
  ⟨(c4_register_duplicate rNotify "t" noopCtor otherCtor rfl).1.2.1,
   (c4_register_duplicate rNotify "t" noopCtor otherCtor rfl).2.1⟩

/-- Claim C5: a structurally valid descriptor whose non-empty string `type`
resolves to no registered constructor makes a non-strict `task` resolve
(no throw: the outcome is `.ok`) with the no-result marker `null`, the
"unknown task type" fault going to the notification callback exactly when
one is configured.  The embedded `task` never touches the registry, so the
registry is unchanged by construction. -/
theorem c5_unknown_type (r : TaskRunner) (l : List (String × Value)) (s : String)
    (hstrict : r.strict = false) (hhook : r.hook = none)
    (htype : getKey l "type" = some (.vStr s)) (hne : s ≠ "")
    (hmiss : r.getTaskConstructor s = none) :
    (r.task (.vObj l)).2 =
      .ok (.vNull, if r.notify then [Err.runnerEx .unknownTask (.vStr s) none] else []) := by
  have hvalid : validTaskData (.vObj l) = true := validTaskData_obj l s htype hne
  have htypend : getField (normalizeTaskData r (.vObj l)) "type" = .vStr s := by
    rw [getField_normalizeTaskData_ne r _ _ hhook (by decide) (by decide)]
    simp [getField, htype]
  simp [TaskRunner.task, hvalid, typeKey_eq _ _ htypend, hmiss, htypend,
    errorReturn, TaskRunner.error, hstrict]

/-- Witness for C5: the unregistered type `"u"` on the `rNotify` fixture. -/
theorem c5_witness :
    (rNotify.task (.vObj [("type", .vStr "u")])).2 =
      .ok (.vNull, if rNotify.notify then [Err.runnerEx .unknownTask (.vStr "u") none] else []) :=
  c5_unknown_type rNotify [("type", .vStr "u")] "u" rfl rfl rfl (by decide) rfl

/-- Claim C6: when the resolved constructor throws `e` during construction,
`task` reports the "failed to construct task" fault wrapping `e` — never the
raw `e`: in strict mode the raised fault is the wrapper (and the wrapper is
provably a different error from `e`), in non-strict mode nothing propagates
(the outcome is `.ok`), the result is the no-result marker `null`, and the
wrapper goes to the notification callback when configured. -/
theorem c6_construct_throw (r : TaskRunner) (l : List (String × Value)) (s : String)
    (c : TaskCtor) (e : Err)
    (hhook : r.hook = none) (htype : getKey l "type" = some (.vStr s)) (hne : s ≠ "")
    (hc : r.getTaskConstructor s = some c)
    (hthrow : c.construct (getField (normalizeTaskData r (.vObj l)) "options") = .error e) :
    (r.strict = true →
      (r.task (.vObj l)).2 = .error (.runnerEx .failedConstruct (.vStr s) (some e)) ∧
      Err.runnerEx .failedConstruct (.vStr s) (some e) ≠ e) ∧
    (r.strict = false →
      (r.task (.vObj l)).2 =
        .ok (.vNull, if r.notify then [Err.runnerEx .failedConstruct (.vStr s) (some e)] else [])) := by
  have hvalid : validTaskData (.vObj l) = true := validTaskData_obj l s htype hne
  have htypend : getField (normalizeTaskData r (.vObj l)) "type" = .vStr s := by
    rw [getField_normalizeTaskData_ne r _ _ hhook (by decide) (by decide)]
    simp [getField, htype]
  constructor
  · intro hstrict
    refine ⟨?_, runnerEx_some_ne e .failedConstruct (.vStr s)⟩
    simp [TaskRunner.task, hvalid, typeKey_eq _ _ htypend, hc, hthrow, htypend,
      errorReturn, TaskRunner.error, hstrict]
  · intro hstrict
    simp [TaskRunner.task, hvalid, typeKey_eq _ _ htypend, hc, hthrow, htypend,
      errorReturn, TaskRunner.error, hstrict]

/-- Witness for C6 on the strict fixture: constructing the registered `bad`
type raises the wrapper around `boomErr`, not `boomErr` itself. -/
theorem c6_witness :
    (rStrict.task (.vObj [("type", .vStr "bad")])).2 =
      .error (.runnerEx .failedConstruct (.vStr "bad") (some boomErr)) ∧
    Err.runnerEx .failedConstruct (.vStr "bad") (some boomErr) ≠ boomErr :=
  (c6_construct_throw rStrict [("type", .vStr "bad")] "bad" badCtor boomErr
    rfl rfl (by decide) rfl rfl).1 rfl

/-- The normalized `args` of a descriptor: always an ordered sequence; an
array is kept as-is, a truthy non-array is wrapped into a one-element
sequence, and a falsy value (absent, `null`, `false`, `0`, `""`, …) becomes
the empty sequence. -/
theorem args_characterization (r : TaskRunner) (l : List (String × Value))
    (hhook : r.hook = none) :
    ∃ args : List Value,
      getField (normalizeTaskData r (.vObj l)) "args" = .vArr args ∧
      (∀ al, getField (.vObj l) "args" = .vArr al → args = al) ∧
      (truthy (getField (.vObj l) "args") = true →
        (∀ al, getField (.vObj l) "args" ≠ .vArr al) →
        args = [getField (.vObj l) "args"]) ∧
      (truthy (getField (.vObj l) "args") = false → args = []) := by
  by_cases harr : ∃ al, getField (.vObj l) "args" = .vArr al
  · obtain ⟨al, hc⟩ := harr
    refine ⟨al, getField_normalizeTaskData_args_arr r l al hhook hc, ?_, ?_, ?_⟩
    · intro al2 h2
      rw [hc] at h2
      cases h2
      rfl
    · intro _ hna
      exact absurd hc (hna al)
    · intro ht
      rw [hc] at ht
      exact absurd ht (by simp [truthy])
  · push_neg at harr
    by_cases ht : truthy (getField (.vObj l) "args") = true
    · refine ⟨[getField (.vObj l) "args"],
        getField_normalizeTaskData_args_wrap r l hhook ht harr, ?_, fun _ _ => rfl, ?_⟩
      · intro al2 h2
        exact absurd h2 (harr al2)
      · intro hf
        rw [ht] at hf
        cases hf
    · have ht' : truthy (getField (.vObj l) "args") = false := by
        cases hb : truthy (getField (.vObj l) "args") with
        | true => exact absurd hb ht
        | false => rfl
      refine ⟨[], getField_normalizeTaskData_args_empty r l hhook ht', ?_, ?_, fun _ => rfl⟩
      · intro al2 h2
        exact absurd h2 (harr al2)
      · intro htt
        exact absurd htt ht

/-- Claim C7 (amended): for a descriptor that reaches its task's `run`, the
argument list `run` is invoked with is the normalized `args` sequence: an
`args` that is already an ordered sequence is passed as-is, a truthy
non-sequence value `v` is wrapped into `[v]` (in particular `args: 5`
becomes `[5]`), and an absent or otherwise falsy `args` (`null`, `false`,
`0`, `""`) becomes the empty sequence — the unamended claim wrongly wraps
the falsy values too, see the counterexample. -/
theorem c7_args_normalized (r : TaskRunner) (l : List (String × Value)) (s : String)
    (c : TaskCtor) (inst : TaskInst)
    (hhook : r.hook = none) (htype : getKey l "type" = some (.vStr s)) (hne : s ≠ "")
    (hc : r.getTaskConstructor s = some c)
    (hinst : c.construct (getField (normalizeTaskData r (.vObj l)) "options") = .ok inst) :
    ∃ args : List Value,
      getField (normalizeTaskData r (.vObj l)) "args" = .vArr args ∧
      (r.task (.vObj l)).2 =
        (match inst.runFn args with
         | .ok stats => .ok (stats, [])
         | .error e => errorReturn r (.runnerEx .failedRun (.vStr s) (some e)) .vNull) ∧
      (∀ al, getField (.vObj l) "args" = .vArr al → args = al) ∧
      (truthy (getField (.vObj l) "args") = true →
        (∀ al, getField (.vObj l) "args" ≠ .vArr al) →
        args = [getField (.vObj l) "args"]) ∧
      (truthy (getField (.vObj l) "args") = false → args = []) := by
  obtain ⟨args, h1, h2, h3, h4⟩ := args_characterization r l hhook
  have hvalid : validTaskData (.vObj l) = true := validTaskData_obj l s htype hne
  have htypend : getField (normalizeTaskData r (.vObj l)) "type" = .vStr s := by
    rw [getField_normalizeTaskData_ne r _ _ hhook (by decide) (by decide)]
    simp [getField, htype]
  have hargsList : argsList (normalizeTaskData r (.vObj l)) = args := by
    unfold argsList
    rw [h1]
  refine ⟨args, h1, ?_, h2, h3, h4⟩
  cases hrun : inst.runFn args with
  | ok stats =>
    simp [TaskRunner.task, hvalid, typeKey_eq _ _ htypend, hc, hinst, hargsList, hrun]
  | error e =>
    simp [TaskRunner.task, hvalid, typeKey_eq _ _ htypend, hc, hinst, hargsList, hrun,
      htypend]

/-- Claim C7 (counterexample): the descriptor `{ type: "echo", args: 0 }`
runs the echoing task with the empty argument list — the echoed result is
`[]`, not the `[0]` the unamended claim ("every non-sequence value v is
wrapped into [v]") requires. -/
theorem c7_counterexample :
    (rStrict.task (.vObj [("type", .vStr "echo"), ("args", .vNum 0)])).2 =
      .ok (.vArr [], []) ∧
    (rStrict.task (.vObj [("type", .vStr "echo"), ("args", .vNum 0)])).2 ≠
      .ok (.vArr [.vNum 0], []) := by
  constructor
  · rfl
  · intro h
    rw [show (rStrict.task (.vObj [("type", .vStr "echo"), ("args", .vNum 0)])).2 =
      .ok (.vArr [], []) from rfl] at h
    simp at h

/-- Witness for C7 at `{ type: "echo", args: 7 }` on the `rNotify` fixture:
the truthy scalar `7` is wrapped into `[7]` by the time `run` receives it. -/
theorem c7_witness :
    ∃ args : List Value,
      getField (normalizeTaskData rNotify (.vObj [("type", .vStr "echo"), ("args", .vNum 7)]))
        "args" = .vArr args ∧
      (rNotify.task (.vObj [("type", .vStr "echo"), ("args", .vNum 7)])).2 =
        (match echoInst.runFn args with
         | .ok stats => .ok (stats, [])
         | .error e => errorReturn rNotify (.runnerEx .failedRun (.vStr "echo") (some e)) .vNull) ∧
      (∀ al, getField (.vObj [("type", .vStr "echo"), ("args", .vNum 7)]) "args" = .vArr al →
        args = al) ∧
      (truthy (getField (.vObj [("type", .vStr "echo"), ("args", .vNum 7)]) "args") = true →
        (∀ al, getField (.vObj [("type", .vStr "echo"), ("args", .vNum 7)]) "args" ≠ .vArr al) →
        args = [getField (.vObj [("type", .vStr "echo"), ("args", .vNum 7)]) "args"]) ∧
      (truthy (getField (.vObj [("type", .vStr "echo"), ("args", .vNum 7)]) "args") = false →
        args = []) :=
  c7_args_normalized rNotify [("type", .vStr "echo"), ("args", .vNum 7)] "echo"
    echoCtor echoInst rfl rfl (by decide) rfl rfl

/-- Claim C8: for every Task instance and partial result mapping, `stats`
force-sets `id` to the effective options id and `time` to the elapsed
measurement handed over by the timer, and two `stats({})` calls on the same
instance — whatever the two timer readings — carry identical `id` values. -/
theorem c8_stats (t : Task) (e1 e2 : Value) (p : List (String × Value)) :
    getField (t.stats e1 (.vObj p)) "id" = getField t.effective "id" ∧
    getField (t.stats e1 (.vObj p)) "time" = e1 ∧
    getField (t.stats e1 (.vObj [])) "id" = getField (t.stats e2 (.vObj [])) "id" := by
  have hid : ∀ (e : Value) (q : List (String × Value)),
      getField (t.stats e (.vObj q)) "id" = getField t.effective "id" := by
    intro e q
    unfold Task.stats
    rw [getField_setField_ne _ _ _ _ (by decide), getField_setField_self]
  refine ⟨hid e1 p, ?_, by rw [hid e1 [], hid e2 []]⟩
  unfold Task.stats
  rw [setField_vObj, getField_setField_self]

/-- Witness for C8 on a concretely constructed Task (options override the
default id) with two distinct timer readings. -/
theorem c8_witness :
    getField ((Task.construct (.vObj [("id", .vStr "a")]) (.vObj []) "gen").stats
      (.vNum 3) (.vObj [("files", .vNum 2)])) "id" =
      getField (Task.construct (.vObj [("id", .vStr "a")]) (.vObj []) "gen").effective "id" ∧
    getField ((Task.construct (.vObj [("id", .vStr "a")]) (.vObj []) "gen").stats
      (.vNum 3) (.vObj [("files", .vNum 2)])) "time" = .vNum 3 ∧
    getField ((Task.construct (.vObj [("id", .vStr "a")]) (.vObj []) "gen").stats
      (.vNum 3) (.vObj [])) "id" =
      getField ((Task.construct (.vObj [("id", .vStr "a")]) (.vObj []) "gen").stats
        (.vNum 9) (.vObj [])) "id" :=
  c8_stats (Task.construct (.vObj [("id", .vStr "a")]) (.vObj []) "gen")
    (.vNum 3) (.vNum 9) [("files", .vNum 2)]

/-- Claim C9: a truthy descriptor `id` is injected into `options.id` during
normalization, overriding any id already present, and a Task constructed
with those options (whatever object defaults the subclass supplies and
whatever fresh id the generator would produce) has that id as its effective
options id.  The `Nodup` hypothesis is the key-uniqueness invariant every
real JavaScript object satisfies. -/
theorem c9_id_override (r : TaskRunner) (l : List (String × Value)) (s idv : String)
    (hhook : r.hook = none) (htype : getKey l "type" = some (.vStr s)) (hne : s ≠ "")
    (hid : getField (.vObj l) "id" = .vStr idv) (hidne : idv ≠ "")
    (hnodup : ∀ ol, getField (.vObj l) "options" = .vObj ol → (ol.map Prod.fst).Nodup) :
    getField (getField (normalizeTaskData r (.vObj l)) "options") "id" = .vStr idv ∧
    ∀ (dl : List (String × Value)) (fresh : String),
      getField (Task.construct (getField (normalizeTaskData r (.vObj l)) "options")
        (.vObj dl) fresh).effective "id" = .vStr idv := by
  have ht : truthy (getField (.vObj l) "id") = true := by
    rw [hid]
    simp [truthy, hidne]
  have ho := getField_normalizeTaskData_options r l hhook
  rw [if_pos ht] at ho
  have hopts : ∃ ol0, getField (normalizeTaskData r (.vObj l)) "options" =
      .vObj (setKey ol0 "id" (.vStr idv)) ∧ (ol0.map Prod.fst).Nodup := by
    by_cases hp : isPojoV (getField (.vObj l) "options") = true
    · obtain ⟨ol, hol⟩ := isPojoV_obj _ hp
      rw [if_pos hp, hol] at ho
      exact ⟨ol, by rw [ho, hid, setField_vObj], hnodup ol hol⟩
    · rw [if_neg hp] at ho
      exact ⟨[], by rw [ho, hid, setField_vObj], by simp⟩
  obtain ⟨ol0, hoptseq, hnd0⟩ := hopts
  constructor
  · rw [hoptseq, ← setField_vObj, getField_setField_self]
  · intro dl fresh
    rw [hoptseq]
    unfold Task.construct cloneObject
    have hobjd : ∃ dl2, (if truthy (getField (.vObj dl) "id") then (.vObj dl : Value)
        else setField (.vObj dl) "id" (.vStr fresh)) = .vObj dl2 := by
      by_cases htd : truthy (getField (.vObj dl) "id") = true
      · rw [if_pos htd]; exact ⟨dl, rfl⟩
      · rw [if_neg htd]; exact ⟨setKey dl "id" (.vStr fresh), rfl⟩
    obtain ⟨dl2, hdl2⟩ := hobjd
    rw [hdl2]
    have hcond : (truthy (.vObj (setKey ol0 "id" (.vStr idv))) &&
        isPojoV (.vObj (setKey ol0 "id" (.vStr idv)))) = true := by
      simp [truthy, isPojoV]
    show getField (if (truthy (.vObj (setKey ol0 "id" (.vStr idv))) &&
          isPojoV (.vObj (setKey ol0 "id" (.vStr idv)))) = true then
        mergeObject (.vObj dl2) (.vObj (setKey ol0 "id" (.vStr idv)))
      else .vObj dl2) "id" = .vStr idv
    rw [if_pos hcond]
    show getField (mergeObject (.vObj dl2) (.vObj (setKey ol0 "id" (.vStr idv)))) "id" =
      .vStr idv
    unfold mergeObject
    show (getKey (mergeFields dl2 (setKey ol0 "id" (.vStr idv))) "id").getD .vUndefined =
      .vStr idv
    rw [getKey_mergeFields_of_getKey (setKey ol0 "id" (.vStr idv)) dl2 "id" (.vStr idv)
      (keys_setKey_nodup ol0 "id" (.vStr idv) hnd0) (getKey_setKey_self ol0 "id" (.vStr idv))
      (by intro f hf; cases hf)]
    rfl

/-- Witness for C9 at a descriptor carrying both an explicit id `"X"` and
an options object with a conflicting `id: "old"` — the effective id of the
constructed Task is `"X"`. -/
theorem c9_witness :
    getField (getField (normalizeTaskData rNotify
      (.vObj [("type", .vStr "t"), ("id", .vStr "X"),
              ("options", .vObj [("id", .vStr "old"), ("k", .vNum 1)])])) "options") "id" =
      .vStr "X" ∧
    ∀ (dl : List (String × Value)) (fresh : String),
      getField (Task.construct
        (getField (normalizeTaskData rNotify
          (.vObj [("type", .vStr "t"), ("id", .vStr "X"),
                  ("options", .vObj [("id", .vStr "old"), ("k", .vNum 1)])])) "options")
        (.vObj dl) fresh).effective "id" = .vStr "X" :=
  c9_id_override rNotify
    [("type", .vStr "t"), ("id", .vStr "X"),
     ("options", .vObj [("id", .vStr "old"), ("k", .vNum 1)])]
    "t" "X" rfl rfl (by decide) rfl (by decide)
    (by intro ol hol; cases hol; decide)

/-- Claim C10: `task` normalizes the caller's descriptor object itself, not
a copy — the embedding returns the final state of that object as the first
component, and for every structurally valid descriptor it equals the
normalized descriptor on all paths (fault paths included): a missing or
invalid `options` has been replaced by a fresh mapping (carrying the
injected id when the descriptor's `id` is truthy), a truthy `id` has been
written into `options.id`, and `args` has been replaced by the normalized
ordered sequence. -/
theorem c10_task_mutates (r : TaskRunner) (l : List (String × Value)) (s : String)
    (hhook : r.hook = none) (htype : getKey l "type" = some (.vStr s)) (hne : s ≠ "") :
    (r.task (.vObj l)).1 = normalizeTaskData r (.vObj l) ∧
    (isPojoV (getField (.vObj l) "options") = false →
      getField (normalizeTaskData r (.vObj l)) "options" =
        (if truthy (getField (.vObj l) "id") then
          .vObj [("id", getField (.vObj l) "id")] else .vObj [])) ∧
    (truthy (getField (.vObj l) "id") = true →
      getField (getField (normalizeTaskData r (.vObj l)) "options") "id" =
        getField (.vObj l) "id") ∧
    (∃ al, getField (normalizeTaskData r (.vObj l)) "args" = .vArr al) := by
  have hvalid : validTaskData (.vObj l) = true := validTaskData_obj l s htype hne
  have ho := getField_normalizeTaskData_options r l hhook
  refine ⟨?_, ?_, ?_, ?_⟩
  · cases hctor : r.getTaskConstructor (typeKey (normalizeTaskData r (.vObj l))) with
    | none => simp [TaskRunner.task, hvalid, hctor]
    | some c =>
      cases hcons : c.construct (getField (normalizeTaskData r (.vObj l)) "options") with
      | error e => simp [TaskRunner.task, hvalid, hctor, hcons]
      | ok inst =>
        cases hrun : inst.runFn (argsList (normalizeTaskData r (.vObj l))) <;>
          simp [TaskRunner.task, hvalid, hctor, hcons, hrun]
  · intro hp
    rw [ho]
    by_cases htr : truthy (getField (.vObj l) "id") = true
    · rw [if_pos htr, if_pos htr, if_neg (by rw [hp]; exact Bool.false_ne_true)]
      rfl
    · rw [if_neg htr, if_neg htr, if_neg (by rw [hp]; exact Bool.false_ne_true)]
  · intro htr
    rw [ho, if_pos htr]
    by_cases hp : isPojoV (getField (.vObj l) "options") = true
    · obtain ⟨ol, hol⟩ := isPojoV_obj _ hp
      rw [if_pos hp, hol, getField_setField_self]
    · rw [if_neg hp, getField_setField_self]
  · obtain ⟨args, h1, _⟩ := args_characterization r l hhook
    exact ⟨args, h1⟩

/-- Witness for C10 at `{ type: "t", args: 5 }`: the caller's object after
the call is the normalized descriptor, its `options` has become the empty
mapping and its `args` the sequence `[5]`; the final conjunct shows the
object really changed. -/
theorem c10_witness :
    ((rNotify.task (.vObj [("type", .vStr "t"), ("args", .vNum 5)])).1 =
      normalizeTaskData rNotify (.vObj [("type", .vStr "t"), ("args", .vNum 5)]) ∧
     getField (normalizeTaskData rNotify (.vObj [("type", .vStr "t"), ("args", .vNum 5)]))
       "options" = .vObj [] ∧
     (∃ al, getField (normalizeTaskData rNotify
       (.vObj [("type", .vStr "t"), ("args", .vNum 5)])) "args" = .vArr al)) ∧
    (rNotify.task (.vObj [("type", .vStr "t"), ("args", .vNum 5)])).1 ≠
      .vObj [("type", .vStr "t"), ("args", .vNum 5)] := by
  have h := c10_task_mutates rNotify [("type", .vStr "t"), ("args", .vNum 5)] "t"
    rfl rfl (by decide)
  refine ⟨⟨h.1, ?_, h.2.2.2⟩, ?_⟩
  · have h2 := h.2.1 (by rfl)
    rw [h2]
    rfl
  · rw [h.1]
    intro hcontra
    rw [show normalizeTaskData rNotify (.vObj [("type", .vStr "t"), ("args", .vNum 5)]) =
      .vObj [("type", .vStr "t"), ("args", .vArr [.vNum 5]), ("options", .vObj [])]
      from rfl] at hcontra
    simp at hcontra

end TaskRunnerSpec

